import Mathlib

/-!
Shallow embedding of the RSS-to-Feishu sync script (`main.py`).

External collaborators — the HTTP layer, BeautifulSoup's HTML-to-text
extraction, the Gemini backend, and the Feishu store's responses — are
modelled as oracle fields of an `Env` record; everything else is a direct
translation of the Python source.  Effectful calls become pure lookups in
the oracles; exceptions become explicit result constructors (`exn`).
-/

namespace RssSync

/-- Python truthiness of an optional environment string: `None` and `""` are falsy. -/
def pyTruthy : Option String → Bool
  | none => false
  | some s => s ≠ ""

/-- Python `a or b` on strings: yields `b` when `a` is empty. -/
def pyOr (a b : String) : String :=
  if a = "" then b else a

/-- Python `a or b` on optional numbers (`None` is falsy; a parsed time struct is truthy). -/
def pyOrOpt (a b : Option Nat) : Option Nat :=
  match a with
  | some x => some x
  | none => b

/-- Python `s[:n]`: the first `n` code points of `s`. -/
def pyTake (s : String) (n : Nat) : String :=
  String.mk (s.data.take n)

/-- Python `s.strip()`: leading and trailing whitespace removed. -/
def pyStrip (s : String) : String :=
  String.mk (((s.data.dropWhile Char.isWhitespace).reverse.dropWhile Char.isWhitespace).reverse)

/-- Outcome of fetching and parsing a page inside `fetch_wechat_content`:
either the request raised, or a parsed page described by the strings
BeautifulSoup would extract — the `js_content` div text when that div
exists, the texts of all `p` tags, and the body text when a body exists. -/
inductive ScrapeRes where
  | exn
  | page (jsContent : Option String) (paragraphs : List String) (body : Option String)

/-- Outcome of the document-creation request in `create_feishu_doc`:
the request raised, or a JSON body with a response `code` and a document id. -/
inductive DocCreateRes where
  | exn
  | resp (code : Int) (docId : String)

/-- Outcome of the block-write request in `create_feishu_doc`. -/
inductive WriteRes where
  | exn
  | resp (code : Int)

/-- Outcome of one batch submission in `batch_create_records`:
the request raised (with an exception message), or a JSON body with a `code`. -/
inductive BatchRes where
  | exn (msg : String)
  | resp (code : Int)

/-- The dedup field `item["fields"].get("Link", "")` of a listed record:
either a plain string (a missing field reads as `""`), or a display-link
dict whose `"link"` key may itself be absent. -/
inductive LinkField where
  | str (s : String)
  | dict (link : Option String)
deriving DecidableEq

/-- Payload of a successful listing page: the `"items"` array when the key is
present, and the `"has_more"` flag.  (When `has_more` is set the source also
reads `page_token`; the token itself is opaque and the successor page is the
next element of the response list.) -/
structure PageData where
  items : Option (List LinkField)
  hasMore : Bool

/-- Outcome of one listing-page request in `fetch_existing_records`:
the request raised, or a JSON body with a `code` and an optional `"data"` object. -/
inductive PageResp where
  | exn
  | resp (code : Int) (data : Option PageData)

/-- A parsed feed entry.  Each `Option` mirrors a key that `entry.get` may
miss: `link` defaults to `""`, `title` to `"No Title"`, `author` to
`"Unknown"`.  `content` is the value of `entry.content[0]` when the `content`
attribute exists (even when that value is the empty string). -/
structure Entry where
  link : Option String
  title : Option String
  content : Option String
  summary : Option String
  description : Option String
  author : Option String
  published_parsed : Option Nat
  updated_parsed : Option Nat
deriving DecidableEq

/-- A parsed feed: the feed-level title (`feed.feed.get("title", ...)`) and
the entry list. -/
structure Feed where
  title : Option String
  entries : List Entry
deriving DecidableEq

/-- One output row handed to the batch writer: the `fields` dict built in
`parse_feeds`.  `linkText`/`linkURL` are the two components of the `Link`
display-link structure; `docLink` is the optional `Doc Link` field. -/
structure SyncRecord where
  title : String
  linkText : String
  linkURL : String
  source : String
  author : String
  summary : String
  date : Nat
  docLink : Option (String × String)
deriving DecidableEq

/-- The oracles for every external collaborator the script talks to. -/
structure Env where
  /-- whether `GEMINI_API_KEY` is set -/
  geminiKey : Bool
  /-- whether the Gemini model object was constructed (`model` is not `None`) -/
  modelConfigured : Bool
  /-- the Gemini backend: `none` models a raised exception, `some r` the response text -/
  aiResp : String → Option String
  /-- BeautifulSoup `get_text` used by `clean_html_simple` -/
  cleanHtml : String → String
  /-- fetching and souping a live page in `fetch_wechat_content` -/
  fetchPage : String → ScrapeRes
  /-- the document-creation endpoint, keyed by token and title -/
  createDoc : String → String → DocCreateRes
  /-- the block-write endpoint, keyed by document id and chunk list -/
  writeBlocks : String → List String → WriteRes
  /-- the two `re.sub` cleanups applied to doc content before chunking -/
  cleanContent : String → String
  /-- `int(time.time() * 1000)`, the wall-clock fallback timestamp -/
  nowMs : Nat
  /-- fetching and parsing one feed URL: `.error e` models a raised exception -/
  fetchFeed : String → Except String Feed

/-- Translation of `clean_html_simple`: empty input short-circuits to `""`,
otherwise BeautifulSoup's text extraction is applied. -/
def clean_html_simple (env : Env) (html : String) : String :=
  if html = "" then "" else env.cleanHtml html

/-- Translation of `fetch_wechat_content`: on a raised request return `""`;
otherwise prefer the `js_content` div text, else join all `p`-tag texts with
newlines, and if that is shorter than 50 characters fall back to the body text. -/
def fetch_wechat_content (env : Env) (url : String) : String :=
  match env.fetchPage url with
  | .exn => ""
  | .page js ps body =>
    match js with
    | some t => t
    | none =>
      let t := String.intercalate "\n" ps
      if t.length < 50 then body.getD "" else t

/-- The prompt string built in `summarize_with_gemini` (the text is sliced to
its first 8000 characters). -/
def geminiPrompt (text : String) : String :=
  "请用一句话概括这篇微信公众号文章的核心内容，直接输出结论，不要废话，50字以内：\n\n" ++ pyTake text 8000

/-- Translation of `summarize_with_gemini`: returns `""` when no model is
configured or the text is empty; otherwise submits the prompt and returns the
stripped response text, with `""` on a raised backend error. -/
def summarize_with_gemini (env : Env) (text : String) : String :=
  if ¬env.modelConfigured ∨ text = "" then ""
  else
    match env.aiResp (geminiPrompt text) with
    | none => ""
    | some r => pyStrip r

/-- Fixed-size chunking, the common shape of `records[i:i+100]` in
`batch_create_records` and `clean_content[i:i+3000]` in `create_feishu_doc`.
(The `n = 0` branch is unreachable for the sizes used and only serves
termination.) -/
def chunkEvery (n : Nat) : List α → List (List α)
  | [] => []
  | x :: xs =>
    if h : n = 0 then [x :: xs]
    else (x :: xs).take n :: chunkEvery n ((x :: xs).drop n)
termination_by l => l.length
decreasing_by simp [List.length_drop]; omega

/-- The URL returned for a created document. -/
def docUrl (docId : String) : String :=
  "https://feishu.cn/docx/" ++ docId

/-- Translation of `create_feishu_doc`.  Content that is empty or shorter than
10 characters is skipped.  A raised creation request or a non-zero creation
code yields `""`.  On success the cleaned content is written in chunks of
3000 characters; a raised write request falls into the outer handler and
yields `""`, while a non-zero write code is only logged and the document URL
is returned anyway. -/
def create_feishu_doc (env : Env) (token title content : String) : String :=
  if content = "" ∨ content.length < 10 then ""
  else
    match env.createDoc token title with
    | .exn => ""
    | .resp code docId =>
      if code ≠ 0 then ""
      else
        let clean := env.cleanContent content
        let text_chunks := (chunkEvery 3000 clean.data).map String.mk
        match env.writeBlocks docId text_chunks with
        | .exn => ""
        | .resp _ => docUrl docId

/-- Normalization of the dedup field in `fetch_existing_records`: a dict is
read through its `"link"` key (defaulting to `""`), a plain string is kept. -/
def normalizeLink : LinkField → String
  | .str s => s
  | .dict l => l.getD ""

/-- Translation of the pagination loop of `fetch_existing_records` over the
sequence of store responses.  A raised request or a non-zero code breaks the
loop, returning what was accumulated so far; a missing `"data"` object breaks
via the raised `resp["data"]` lookup; otherwise the page's item links are
added (normalized) and the loop continues exactly when `has_more` is set.
The set is represented as a list — only membership matters. -/
def fetch_existing_records : List PageResp → List String
  | [] => []
  | p :: ps =>
    match p with
    | .exn => []
    | .resp code data =>
      if code ≠ 0 then []
      else
        match data with
        | none => []
        | some d =>
          let links := (d.items.getD []).map normalizeLink
          if d.hasMore then links ++ fetch_existing_records ps else links

/-- The feed-field part of the content extraction in `parse_feeds` (source
lines 234–238): the structured content block is used whenever the attribute
is present; otherwise `summary or description` is converted. -/
def extractBase (env : Env) (entry : Entry) : String :=
  match entry.content with
  | some v => clean_html_simple env v
  | none => clean_html_simple env (pyOr (entry.summary.getD "") (entry.description.getD ""))

/-- The fetch-if-short step wrapped around `extractBase` (source lines
240–245), instrumented with a flag recording whether the live page was
fetched: when the base text is shorter than 100 characters and the link is
non-empty, the page is scraped and the fetched text kept only when strictly
longer. -/
def extractContent (env : Env) (entry : Entry) : String × Bool :=
  let link := entry.link.getD ""
  let t := extractBase env entry
  if t.length < 100 ∧ link ≠ "" then
    let fetched := fetch_wechat_content env link
    (if t.length < fetched.length then fetched else t, true)
  else (t, false)

/-- The summary step of `parse_feeds` for one entry (source lines 252–264):
the AI path runs only when the key is configured and the text is longer than
50 characters, and an empty AI result falls back to the same truncation
`content_text[:100] + "..."` used when the AI path is skipped. -/
def summaryStep (env : Env) (content_text : String) : String :=
  if env.geminiKey ∧ 50 < content_text.length then
    let r := summarize_with_gemini env content_text
    if r = "" then pyTake content_text 100 ++ "..." else r
  else pyTake content_text 100 ++ "..."

/-- Processing of one entry inside `parse_feeds`: the dedup check against the
in-memory set (represented as a list), insertion at discovery time, then
extraction, document creation, summarization and record assembly.  Returns
the updated set and the optional new record. -/
def processEntry (env : Env) (token : String) (feedTitle : Option String)
    (existing : List String) (entry : Entry) : List String × Option SyncRecord :=
  let link := entry.link.getD ""
  if link ∈ existing then (existing, none)
  else
    let existing1 := link :: existing
    let title := entry.title.getD "No Title"
    let content_text := (extractContent env entry).1
    let doc_link :=
      if 50 < content_text.length then create_feishu_doc env token title content_text else ""
    let ai_summary := summaryStep env content_text
    let pub := pyOrOpt entry.published_parsed entry.updated_parsed
    let pub_ts :=
      match pub with
      | some t => t * 1000
      | none => env.nowMs
    (existing1, some
      { title := title
        linkText := "原文链接"
        linkURL := link
        source := feedTitle.getD "Unknown Source"
        author := entry.author.getD "Unknown"
        summary := ai_summary
        date := pub_ts
        docLink := if doc_link = "" then none else some ("飞书文档", doc_link) })

/-- The inner entry loop of `parse_feeds`: threads the dedup set through the
entries and collects the produced records in order. -/
def processFeedEntries (env : Env) (token : String) (feedTitle : Option String)
    (existing : List String) : List Entry → List String × List SyncRecord
  | [] => (existing, [])
  | e :: es =>
    let step := processEntry env token feedTitle existing e
    let rest := processFeedEntries env token feedTitle step.1 es
    (rest.1, match step.2 with
             | some r => r :: rest.2
             | none => rest.2)

/-- The sink-invocation message for a feed failure:
`send_feishu_notification(f"⚠️ Error parsing feed {url}: {e}")`. -/
def feedErrMsg (url e : String) : String :=
  "⚠️ Error parsing feed " ++ url ++ ": " ++ e

/-- Output of a `parse_feeds` run: the assembled records and the messages
passed to the notification sink, each in order of occurrence. -/
structure RunOut where
  records : List SyncRecord
  notices : List String
deriving DecidableEq

/-- Translation of `parse_feeds` over the feed URL list.  Blank URLs are
skipped; a raised fetch/parse is caught, reported to the sink, and the
remaining feeds continue; a parsed feed contributes its first 5 entries
(`feed.entries[:5]`) to the entry loop, threading the dedup set onward. -/
def parse_feeds (env : Env) (token : String) :
    List String → List String → List String × RunOut
  | [], existing => (existing, ⟨[], []⟩)
  | url :: rest, existing =>
    if pyStrip url = "" then parse_feeds env token rest existing
    else
      match env.fetchFeed url with
      | .error e =>
        let r := parse_feeds env token rest existing
        (r.1, ⟨r.2.records, feedErrMsg url e :: r.2.notices⟩)
      | .ok feed =>
        let entries := feed.entries.take 5
        let step := processFeedEntries env token feed.title existing entries
        let r := parse_feeds env token rest step.1
        (r.1, ⟨step.2 ++ r.2.records, r.2.notices⟩)

/-- Translation of `batch_create_records`: an empty record list returns
immediately with no submission; otherwise the records are cut into chunks of
100 and every chunk is submitted — the per-chunk `try/except` means a failed
chunk only adds a sink message and never stops the loop.  Returns the list of
submission calls (each call's payload, in order) and the sink messages. -/
def batch_create_records (submit : List SyncRecord → BatchRes)
    (records : List SyncRecord) : List (List SyncRecord) × List String :=
  if records = [] then ([], [])
  else
    let chunks := chunkEvery 100 records
    (chunks, chunks.filterMap fun batch =>
      match submit batch with
      | .exn e => some ("⚠️ Request failed: " ++ e)
      | .resp code => if code = 0 then none else some "⚠️ Error adding batch")

/-- Observable actions of the `main` entry point relevant to start-up:
process output, a message passed to the notification sink, and an outbound
network request. -/
inductive Action where
  | print (s : String)
  | notify (s : String)
  | network (url : String)
deriving DecidableEq

/-- The process configuration read from the environment at start-up. -/
structure Config where
  appId : Option String
  appSecret : Option String
  baseToken : Option String
  tableId : Option String
  rssFeeds : Option String
  geminiKey : Option String
  webhook : Option String

/-- The start-up guard of `main`:
`not all([FEISHU_APP_ID, FEISHU_APP_SECRET, FEISHU_BASE_TOKEN, FEISHU_TABLE_ID, RSS_FEEDS_ENV])`. -/
def missingConfig (cfg : Config) : Bool :=
  ¬(pyTruthy cfg.appId ∧ pyTruthy cfg.appSecret ∧ pyTruthy cfg.baseToken ∧
    pyTruthy cfg.tableId ∧ pyTruthy cfg.rssFeeds)

/-- Translation of the start of `main`: when a required variable is missing
the run prints one message and returns at once; otherwise it prints the
start-up line and proceeds to the remainder of the run (token fetch onwards),
abstracted here as the trace `rest`, whose first element is the network
request of `get_tenant_access_token`. -/
def main (cfg : Config) (rest : List Action) : List Action :=
  if missingConfig cfg then [.print "Error: Missing environment variables."]
  else .print "Starting sync job..." :: rest

/-- Overriding the parsed result of one feed URL, used to state that entries
past the fifth never influence a run. -/
def envWithFeed (env : Env) (url : String) (f : Feed) : Env :=
  { env with fetchFeed := fun u => if u = url then .ok f else env.fetchFeed u }

/-! Concrete fixtures used to instantiate the theorems below. -/

/-- An inert environment: no AI, every outbound request raises. -/
def baseEnv : Env where
  geminiKey := false
  modelConfigured := false
  aiResp := fun _ => none
  cleanHtml := fun s => s
  fetchPage := fun _ => .exn
  createDoc := fun _ _ => .exn
  writeBlocks := fun _ _ => .exn
  cleanContent := fun s => s
  nowMs := 1700000000000
  fetchFeed := fun _ => .error "network error"

/-- A minimal feed entry carrying only a link and a short description. -/
def mkEntry (l : String) : Entry where
  link := some l
  title := some ("T " ++ l)
  content := none
  summary := none
  description := some "short desc"
  author := some "au"
  published_parsed := some 1700000000
  updated_parsed := none

/-- A three-entry feed with pairwise distinct links. -/
def feedB : Feed :=
  ⟨some "Feed B", [mkEntry "https://x/1", mkEntry "https://x/2", mkEntry "https://x/3"]⟩

/-- Environment where URL `"B"` parses to `feedB` and every other URL raises. -/
def wEnvRun : Env :=
  { baseEnv with fetchFeed := fun u => if u = "B" then .ok feedB else .error "boom" }

/-- A seven-entry feed, for the first-five truncation boundary. -/
def feed7 : Feed :=
  ⟨some "Feed 7", (List.range 7).map fun i => mkEntry ("https://y/" ++ toString i)⟩

/-- Environment where URL `"F"` parses to `feed7`. -/
def env10 : Env :=
  { baseEnv with fetchFeed := fun u => if u = "F" then .ok feed7 else .error "e" }

/-- Environment whose AI backend is configured and always answers. -/
def envAi : Env :=
  { baseEnv with geminiKey := true, modelConfigured := true, aiResp := fun _ => some "AI 摘要" }

/-- Environment whose document store accepts creation and block writes. -/
def wEnvDoc : Env :=
  { baseEnv with createDoc := fun _ _ => .resp 0 "d1", writeBlocks := fun _ _ => .resp 0 }

/-- Environment whose document store accepts creation but whose block-write
request raises. -/
def cexEnvDoc : Env :=
  { baseEnv with createDoc := fun _ _ => .resp 0 "d1", writeBlocks := fun _ _ => .exn }

/-- A 200-character plain-text description. -/
def longD : String := String.mk (List.replicate 200 'd')

/-- A plain text longer than the 10000-character bound named by the spec. -/
def bigHtml : String := String.mk (List.replicate 10001 'a')

/-- An entry whose `content` attribute exists but holds the empty string,
while a long description is also present. -/
def entryCex : Entry where
  link := none
  title := some "T"
  content := some ""
  summary := none
  description := some longD
  author := none
  published_parsed := none
  updated_parsed := none

/-- A fixed record for chunking instances. -/
def testRec : SyncRecord where
  title := "T"
  linkText := "原文链接"
  linkURL := "https://x/1"
  source := "S"
  author := "A"
  summary := "s..."
  date := 1700000000000
  docLink := none

/-- A configuration with the webhook set but the app id missing. -/
def cfgX : Config where
  appId := none
  appSecret := some "sec"
  baseToken := some "base"
  tableId := some "tbl"
  rssFeeds := some "https://feeds/a"
  geminiKey := none
  webhook := some "https://hook"

/-! Helper lemmas about fixed-size chunking. -/

theorem chunkEvery_flatten (n : Nat) (l : List α) : (chunkEvery n l).flatten = l := by
  induction l using chunkEvery.induct n with
  | case1 => simp [chunkEvery]
  | case2 x xs h => simp [chunkEvery, h]
  | case3 x xs h ih => rw [chunkEvery]; simp [h, ih, List.take_append_drop]

theorem chunkEvery_length (n : Nat) (hn : n ≠ 0) (l : List α) :
    (chunkEvery n l).length = (l.length + (n - 1)) / n := by
  induction l using chunkEvery.induct n with
  | case1 =>
    simp [chunkEvery]
    exact (Nat.div_eq_of_lt (by omega)).symm
  | case2 x xs h => omega
  | case3 x xs h ih =>
    rw [chunkEvery]
    simp only [h, dite_false, List.length_cons, ih, List.length_drop]
    rcases Nat.lt_or_ge (xs.length + 1) n with hlt | hge
    · have h0 : xs.length + 1 - n = 0 := by omega
      have h1 : (n - 1) / n = 0 := Nat.div_eq_of_lt (by omega)
      rw [h0, Nat.zero_add, h1]
      exact (Nat.div_eq_of_lt_le (by omega) (by omega)).symm
    · have heq : xs.length + 1 + (n - 1) = (xs.length + 1 - n + (n - 1)) + n := by omega
      rw [heq, Nat.add_div_right _ (by omega)]

theorem chunkEvery_mem_le (n : Nat) (hn : n ≠ 0) (l : List α) :
    ∀ c ∈ chunkEvery n l, c.length ≤ n := by
  induction l using chunkEvery.induct n with
  | case1 => simp [chunkEvery]
  | case2 x xs h => omega
  | case3 x xs h ih =>
    rw [chunkEvery]
    simp only [h, dite_false, List.mem_cons]
    rintro c (rfl | hc)
    · simp [List.length_take]
    · exact ih c hc

/-- C2: the batch writer makes no submission call for an empty record list,
otherwise issues exactly `⌈N/100⌉` submission calls of at most 100 records
each, whose concatenation (hence per-chunk order) is the input list; the
sequence of calls does not depend on any chunk's submission outcome, so a
failing chunk never prevents the remaining chunks. -/
theorem batch_create_records_chunking (submit submit2 : List SyncRecord → BatchRes)
    (records : List SyncRecord) :
    (batch_create_records submit records).1.length = (records.length + 99) / 100
    ∧ (∀ c ∈ (batch_create_records submit records).1, c.length ≤ 100)
    ∧ (batch_create_records submit records).1.flatten = records
    ∧ (batch_create_records submit records).1 = (batch_create_records submit2 records).1 := by
  by_cases h : records = []
  · subst h; refine ⟨rfl, by simp [batch_create_records], rfl, rfl⟩
  · simp only [batch_create_records, h, if_false]
    exact ⟨chunkEvery_length 100 (by omega) records,
      chunkEvery_mem_le 100 (by omega) records,
      chunkEvery_flatten 100 records, trivial⟩

/-- Witness for C2 at a concrete one-record input: one call is issued, the
call contains at most 100 records. -/
theorem batch_create_records_chunking_witness :
    (batch_create_records (fun _ => BatchRes.resp 0) [testRec]).1.length = (1 + 99) / 100
    ∧ [testRec].length ≤ 100 :=
  ⟨(batch_create_records_chunking (fun _ => .resp 0) (fun _ => .resp 1) [testRec]).1,
   (batch_create_records_chunking (fun _ => .resp 0) (fun _ => .resp 1) [testRec]).2.1
     [testRec] (by simp [batch_create_records, chunkEvery])⟩

/-- C9 (amended): the document publisher writes content in chunks of at most
3000 characters; a raised or non-success creation yields the empty reference
and the entry still produces a record with no document link; when creation
succeeds and the block write yields a response (any code, success or not),
the document URL is returned — but a raised block-write request falls to the
outer handler and yields the empty reference (see the counterexample). -/
theorem create_feishu_doc_amended (env : Env) (token title content : String) :
    (∀ c ∈ (chunkEvery 3000 (env.cleanContent content).data).map String.mk, c.length ≤ 3000)
    ∧ (env.createDoc token title = .exn → create_feishu_doc env token title content = "")
    ∧ (∀ code docId, env.createDoc token title = .resp code docId → code ≠ 0 →
        create_feishu_doc env token title content = "")
    ∧ (∀ docId wcode, env.createDoc token title = .resp 0 docId →
        content ≠ "" → ¬content.length < 10 →
        env.writeBlocks docId ((chunkEvery 3000 (env.cleanContent content).data).map String.mk)
          = .resp wcode →
        create_feishu_doc env token title content = docUrl docId)
    ∧ (∀ ft existing entry, entry.link.getD "" ∉ existing →
        create_feishu_doc env token (entry.title.getD "No Title")
          ((extractContent env entry).1) = "" →
        ∃ r, (processEntry env token ft existing entry).2 = some r ∧ r.docLink = none) := by
  refine ⟨?_, ?_, ?_, ?_, ?_⟩
  · intro c hc
    rcases List.mem_map.mp hc with ⟨d, hd, rfl⟩
    exact chunkEvery_mem_le 3000 (by omega) _ d hd
  · intro h
    by_cases hc : content = "" ∨ content.length < 10
    · simp [create_feishu_doc, hc]
    · simp [create_feishu_doc, hc, h]
  · intro code docId h hcode
    by_cases hc : content = "" ∨ content.length < 10
    · simp [create_feishu_doc, hc]
    · simp [create_feishu_doc, hc, h, hcode]
  · intro docId wcode h h1 h2 hw
    have hc : ¬(content = "" ∨ content.length < 10) := by
      push_neg; exact ⟨h1, by omega⟩
    simp [create_feishu_doc, hc, h, hw]
  · intro ft existing entry hmem hdoc
    have hdl : (if 50 < ((extractContent env entry).1).length then
        create_feishu_doc env token (entry.title.getD "No Title") ((extractContent env entry).1)
      else "") = "" := by
      by_cases hlen : 50 < ((extractContent env entry).1).length
      · simpa [hlen] using hdoc
      · simp [hlen]
    simp only [processEntry, if_neg hmem]
    exact ⟨_, rfl, by simp [hdl]⟩

/-- Witness for C9's amended theorem: with a store that accepts both the
creation and the block write, the link is returned; and with a failing
creation, the entry still yields a record with no document link. -/
theorem create_feishu_doc_amended_witness :
    create_feishu_doc wEnvDoc "tok" "T" "0123456789" = docUrl "d1"
    ∧ ∃ r, (processEntry baseEnv "tok" none [] (mkEntry "https://x/9")).2 = some r
        ∧ r.docLink = none :=
  ⟨(create_feishu_doc_amended wEnvDoc "tok" "T" "0123456789").2.2.2.1 "d1" 0
      rfl (by decide) (by decide) rfl,
   (create_feishu_doc_amended baseEnv "tok" "" "").2.2.2.2 none [] (mkEntry "https://x/9")
      (by decide) (by decide)⟩

/-- C9 counterexample: the creation request succeeds (code 0, document id
`d1`) yet, because the block-write request raises, `create_feishu_doc`
returns the empty reference rather than the document's link — refuting the
claim that the link is still returned whenever the write fails. -/
theorem create_feishu_doc_write_exn_counterexample :
    cexEnvDoc.createDoc "tok" "T" = .resp 0 "d1"
    ∧ cexEnvDoc.writeBlocks "d1"
        ((chunkEvery 3000 (cexEnvDoc.cleanContent "0123456789").data).map String.mk) = .exn
    ∧ create_feishu_doc cexEnvDoc "tok" "T" "0123456789" = ""
    ∧ docUrl "d1" ≠ "" :=
  ⟨rfl, rfl, by decide, by decide⟩

/-- C3: for text below the minimum-length threshold, or with no AI key
configured, or when the backend errors or answers empty, the per-item summary
is the deterministic truncation `text[:100] + "..."`, and for short text the
output does not depend on whether a backend is configured. -/
theorem summaryStep_fallback_deterministic (env env2 : Env) (text : String) :
    (text.length < 50 → summaryStep env text = pyTake text 100 ++ "...")
    ∧ (env.geminiKey = false → summaryStep env text = pyTake text 100 ++ "...")
    ∧ (summarize_with_gemini env text = "" → summaryStep env text = pyTake text 100 ++ "...")
    ∧ (text.length < 50 → summaryStep env text = summaryStep env2 text) := by
  have short : ∀ e : Env, text.length < 50 → summaryStep e text = pyTake text 100 ++ "..." := by
    intro e h
    simp only [summaryStep]
    rw [if_neg fun hc => absurd hc.2 (by omega)]
  refine ⟨short env, ?_, ?_, fun h => (short env h).trans (short env2 h).symm⟩
  · intro h
    simp [summaryStep, h]
  · intro h
    by_cases hc : env.geminiKey ∧ 50 < text.length
    · simp [summaryStep, hc, h]
    · simp [summaryStep, hc]

/-- Witness for C3 at the concrete short text `"hi"`: the fallback truncation
is produced with no backend, and the output is identical with the always-on
backend `envAi`. -/
theorem summaryStep_fallback_witness :
    summaryStep baseEnv "hi" = pyTake "hi" 100 ++ "..."
    ∧ summaryStep baseEnv "hi" = summaryStep envAi "hi" :=
  ⟨(summaryStep_fallback_deterministic baseEnv envAi "hi").1 (by decide),
   (summaryStep_fallback_deterministic baseEnv envAi "hi").2.2.2 (by decide)⟩

/-- C4 (amended): the structured content block is used whenever the attribute
is present (even when it converts to empty text); when absent the summary
field, else the description field, is converted; scraping happens only when
the converted text is shorter than 100 characters and a non-empty link
exists; in particular an entry whose only field is a description whose
converted text has at least 100 characters yields that converted description
with no scrape. -/
theorem extract_cascade_amended (env : Env) (entry : Entry) (d : String) :
    (∀ v, entry.content = some v → extractBase env entry = clean_html_simple env v)
    ∧ (entry.content = none →
        extractBase env entry
          = clean_html_simple env (pyOr (entry.summary.getD "") (entry.description.getD "")))
    ∧ (100 ≤ (extractBase env entry).length →
        extractContent env entry = (extractBase env entry, false))
    ∧ (entry.link.getD "" = "" →
        extractContent env entry = (extractBase env entry, false))
    ∧ (entry.content = none → entry.summary = none → entry.description = some d →
        100 ≤ (clean_html_simple env d).length →
        extractContent env entry = (clean_html_simple env d, false)) := by
  have hb3 : ∀ s : String, extractBase env entry = s → 100 ≤ s.length →
      extractContent env entry = (s, false) := by
    intro s hs hlen
    simp only [extractContent, hs]
    rw [if_neg fun hc => absurd hc.1 (by omega)]
  refine ⟨?_, ?_, fun h => hb3 _ rfl h, ?_, ?_⟩
  · intro v hv
    simp [extractBase, hv]
  · intro h
    simp [extractBase, h]
  · intro h
    simp only [extractContent, h]
    rw [if_neg fun hc => absurd rfl hc.2]
  · intro h1 h2 h3 h4
    refine hb3 _ ?_ h4
    simp [extractBase, h1, h2, h3, pyOr]

/-- Witness for C4's amended theorem: a concrete entry with only a
200-character description yields that description (the identity HTML-to-text
oracle keeps it verbatim) and performs no scrape. -/
theorem extract_cascade_amended_witness :
    extractContent baseEnv
      { link := some "https://x/1", title := none, content := none, summary := none,
        description := some longD, author := none,
        published_parsed := none, updated_parsed := none }
      = (clean_html_simple baseEnv longD, false) :=
  (extract_cascade_amended baseEnv _ longD).2.2.2.2 rfl rfl rfl
    (by
      have h0 : longD ≠ "" := by
        intro h
        have hlen := congrArg String.length h
        rw [show longD.length = (List.replicate 200 'd').length from rfl,
          List.length_replicate] at hlen
        simp at hlen
      rw [clean_html_simple, if_neg h0,
        show (baseEnv.cleanHtml longD).length = (List.replicate 200 'd').length from rfl,
        List.length_replicate]
      omega)

/-- C4 counterexample: an entry whose `content` attribute exists with the
empty string, alongside a 200-character description, extracts to the empty
string — the cascade stops at the present-but-empty content block rather
than at the first non-empty source, refuting the claim as stated. -/
theorem extract_cascade_counterexample :
    entryCex.content = some ""
    ∧ entryCex.description = some longD
    ∧ 100 ≤ (clean_html_simple baseEnv longD).length
    ∧ extractContent baseEnv entryCex = ("", false) := by
  refine ⟨rfl, rfl, ?_, by decide⟩
  have h0 : longD ≠ "" := by
    intro h
    have hlen := congrArg String.length h
    rw [show longD.length = (List.replicate 200 'd').length from rfl,
      List.length_replicate] at hlen
    simp at hlen
  rw [clean_html_simple, if_neg h0,
    show (baseEnv.cleanHtml longD).length = (List.replicate 200 'd').length from rfl,
    List.length_replicate]
  omega

/-- C5 counterexample: the HTML-to-text conversion applies no length cap — a
plain text of 10001 characters passes through `clean_html_simple` whole,
exceeding the 10000-character bound named by the spec. -/
theorem clean_html_no_cap_counterexample :
    10000 < (clean_html_simple baseEnv bigHtml).length := by
  have h0 : bigHtml ≠ "" := by
    intro h
    have hlen := congrArg String.length h
    rw [show bigHtml.length = (List.replicate 10001 'a').length from rfl,
      List.length_replicate] at hlen
    simp at hlen
  rw [clean_html_simple, if_neg h0,
    show (baseEnv.cleanHtml bigHtml).length = (List.replicate 10001 'a').length from rfl,
    List.length_replicate]
  omega

/-- C5 (amended): extraction output length is unbounded — for every bound
there are environments and inputs for which both the HTML-to-text conversion
and the live-page scrape produce strictly longer text. -/
theorem extract_unbounded_amended (B : Nat) :
    (∃ env html, B < (clean_html_simple env html).length)
    ∧ (∃ env url, B < (fetch_wechat_content env url).length) := by
  have hrep : (String.mk (List.replicate (B + 1) 'a')).length = B + 1 := by
    rw [show (String.mk (List.replicate (B + 1) 'a')).length
        = (List.replicate (B + 1) 'a').length from rfl, List.length_replicate]
  constructor
  · refine ⟨baseEnv, String.mk (List.replicate (B + 1) 'a'), ?_⟩
    have h0 : String.mk (List.replicate (B + 1) 'a') ≠ "" := by
      intro h
      have hlen := congrArg String.length h
      rw [hrep] at hlen
      simp at hlen
    rw [clean_html_simple, if_neg h0]
    show B < (String.mk (List.replicate (B + 1) 'a')).length
    omega
  · refine ⟨{ baseEnv with
        fetchPage := fun _ => .page (some (String.mk (List.replicate (B + 1) 'a'))) [] none },
      "u", ?_⟩
    show B < (String.mk (List.replicate (B + 1) 'a')).length
    omega

/-! Helper lemmas about the per-entry dedup step. -/

theorem processEntry_mem (env : Env) (token : String) (ft : Option String)
    (existing : List String) (entry : Entry) (h : entry.link.getD "" ∈ existing) :
    processEntry env token ft existing entry = (existing, none) := by
  simp [processEntry, h]

theorem processEntry_not_mem (env : Env) (token : String) (ft : Option String)
    (existing : List String) (entry : Entry) (h : entry.link.getD "" ∉ existing) :
    (processEntry env token ft existing entry).1 = entry.link.getD "" :: existing
    ∧ ∃ r, (processEntry env token ft existing entry).2 = some r
        ∧ r.linkURL = entry.link.getD "" := by
  simp only [processEntry, if_neg h]
  exact ⟨trivial, _, rfl, rfl⟩

/-- Invariant of the entry loop: the dedup set only grows, every produced
record's link is in the final set but not in the initial one, and the
produced links are pairwise distinct. -/
theorem processFeedEntries_invariant (env : Env) (token : String) (ft : Option String) :
    ∀ (entries : List Entry) (existing : List String),
      (∀ l ∈ existing, l ∈ (processFeedEntries env token ft existing entries).1)
      ∧ (∀ r ∈ (processFeedEntries env token ft existing entries).2,
          r.linkURL ∈ (processFeedEntries env token ft existing entries).1
          ∧ r.linkURL ∉ existing)
      ∧ ((processFeedEntries env token ft existing entries).2.map SyncRecord.linkURL).Nodup := by
  intro entries
  induction entries with
  | nil => intro existing; simp [processFeedEntries]
  | cons e es ih =>
    intro existing
    by_cases h : e.link.getD "" ∈ existing
    · have hpe := processEntry_mem env token ft existing e h
      simp only [processFeedEntries, hpe]
      exact ih existing
    · obtain ⟨h1, r, h2, h3⟩ := processEntry_not_mem env token ft existing e h
      have hunf : processFeedEntries env token ft existing (e :: es)
          = ((processFeedEntries env token ft (e.link.getD "" :: existing) es).1,
             r :: (processFeedEntries env token ft (e.link.getD "" :: existing) es).2) := by
        simp only [processFeedEntries, h1, h2]
      rw [hunf]
      obtain ⟨ihA, ihB, ihC⟩ := ih (e.link.getD "" :: existing)
      refine ⟨?_, ?_, ?_⟩
      · intro l hl
        exact ihA l (List.mem_cons_of_mem _ hl)
      · intro r' hr'
        rcases List.mem_cons.mp hr' with rfl | hr'
        · exact ⟨ihA _ (by simp [h3]), by rw [h3]; exact h⟩
        · exact ⟨(ihB r' hr').1, fun hc => (ihB r' hr').2 (List.mem_cons_of_mem _ hc)⟩
      · refine List.Nodup.cons ?_ ihC
        intro hc
        rcases List.mem_map.mp hc with ⟨r', hr', heq⟩
        exact (ihB r' hr').2 (by rw [heq, h3]; exact List.mem_cons_self _ _)

/-- Invariant of the whole run: same statement lifted over the feed loop. -/
theorem parse_feeds_invariant (env : Env) (token : String) :
    ∀ (urls : List String) (existing : List String),
      (∀ l ∈ existing, l ∈ (parse_feeds env token urls existing).1)
      ∧ (∀ r ∈ (parse_feeds env token urls existing).2.records,
          r.linkURL ∈ (parse_feeds env token urls existing).1 ∧ r.linkURL ∉ existing)
      ∧ ((parse_feeds env token urls existing).2.records.map SyncRecord.linkURL).Nodup := by
  intro urls
  induction urls with
  | nil => intro existing; simp [parse_feeds]
  | cons url rest ih =>
    intro existing
    by_cases htrim : pyStrip url = ""
    · simp only [parse_feeds, if_pos htrim]
      exact ih existing
    · cases hfetch : env.fetchFeed url with
      | error e =>
        simp only [parse_feeds, if_neg htrim, hfetch]
        exact ih existing
      | ok f =>
        simp only [parse_feeds, if_neg htrim, hfetch]
        obtain ⟨peA, peB, peC⟩ :=
          processFeedEntries_invariant env token f.title (f.entries.take 5) existing
        obtain ⟨ihA, ihB, ihC⟩ :=
          ih (processFeedEntries env token f.title existing (f.entries.take 5)).1
        refine ⟨fun l hl => ihA l (peA l hl), ?_, ?_⟩
        · intro r hr
          rcases List.mem_append.mp hr with hr | hr
          · exact ⟨ihA _ (peB r hr).1, (peB r hr).2⟩
          · exact ⟨(ihB r hr).1, fun hc => (ihB r hr).2 (peA _ hc)⟩
        · rw [List.map_append]
          refine List.Nodup.append peC ihC ?_
          intro x hx hx'
          rcases List.mem_map.mp hx with ⟨r, hr, rfl⟩
          rcases List.mem_map.mp hx' with ⟨r', hr', heq⟩
          exact (ihB r' hr').2 (by rw [heq]; exact (peB r hr).1)

/-- C1: a link already in the index at the start of a run never appears among
the run's output records, and — since a discovered link enters the in-memory
set before extraction and enrichment — the links of the output records are
pairwise distinct, so a link appearing twice across the run's feeds yields at
most one record. -/
theorem parse_feeds_dedup_invariant (env : Env) (token : String)
    (urls existing : List String) :
    (∀ r ∈ (parse_feeds env token urls existing).2.records, r.linkURL ∉ existing)
    ∧ ((parse_feeds env token urls existing).2.records.map SyncRecord.linkURL).Nodup :=
  ⟨fun r hr => ((parse_feeds_invariant env token urls existing).2.1 r hr).2,
   (parse_feeds_invariant env token urls existing).2.2⟩

/-- Witness for C1 on a concrete run over `feedB` with one pre-existing link:
the produced links are distinct and the first produced record's link is not
in the initial index. -/
theorem parse_feeds_dedup_invariant_witness :
    ((parse_feeds wEnvRun "t" ["B"] ["https://x/0"]).2.records.map SyncRecord.linkURL).Nodup
    ∧ ((parse_feeds wEnvRun "t" ["B"] ["https://x/0"]).2.records.headD testRec).linkURL
        ∉ ["https://x/0"] :=
  ⟨(parse_feeds_dedup_invariant wEnvRun "t" ["B"] ["https://x/0"]).2,
   (parse_feeds_dedup_invariant wEnvRun "t" ["B"] ["https://x/0"]).1 _ (by decide)⟩

/-- C6: the index loader never propagates a page failure — a raised page
request, or a non-success store code, halts pagination and returns exactly
the links accumulated from the preceding pages; and the dedup field is
normalized to the URL component of a display-link structure, or kept as the
plain string otherwise. -/
theorem fetch_existing_records_halts_early
    (ds : List PageData) (rest : List PageResp) (bad : PageResp)
    (hmore : ∀ d ∈ ds, d.hasMore = true)
    (hbad : bad = .exn ∨ ∃ c dt, bad = PageResp.resp c dt ∧ c ≠ 0) :
    fetch_existing_records ((ds.map fun d => PageResp.resp 0 (some d)) ++ bad :: rest)
      = (ds.map fun d => (d.items.getD []).map normalizeLink).flatten
    ∧ (∀ u, normalizeLink (.dict (some u)) = u)
    ∧ (∀ s, normalizeLink (.str s) = s) := by
  refine ⟨?_, fun u => rfl, fun s => rfl⟩
  induction ds with
  | nil =>
    simp only [List.map_nil, List.nil_append, List.flatten_nil]
    rcases hbad with rfl | ⟨c, dt, rfl, hc⟩
    · rfl
    · simp [fetch_existing_records, hc]
  | cons d ds ih =>
    have hd := hmore d (List.mem_cons_self _ _)
    simp only [List.map_cons, List.cons_append, List.flatten_cons]
    rw [fetch_existing_records]
    simp only [hd, if_true]
    rw [if_neg (by simp), ih fun d' hd' => hmore d' (List.mem_cons_of_mem _ hd')]

/-- Witness for C6 on a concrete response sequence: one good page holding a
display-link and a plain string, then a raised page — the result is the two
normalized links, and the two normalization shapes evaluate as claimed. -/
theorem fetch_existing_records_halts_early_witness :
    fetch_existing_records
        [PageResp.resp 0 (some ⟨some [LinkField.dict (some "https://x/1"),
            LinkField.str "https://x/2"], true⟩), PageResp.exn]
      = ["https://x/1", "https://x/2"]
    ∧ normalizeLink (.dict (some "https://u")) = "https://u"
    ∧ normalizeLink (.str "https://v") = "https://v" := by
  have h := fetch_existing_records_halts_early
    [⟨some [LinkField.dict (some "https://x/1"), LinkField.str "https://x/2"], true⟩]
    [] PageResp.exn (by decide) (Or.inl rfl)
  exact ⟨by simpa using h.1, h.2.1 "https://u", h.2.2 "https://v"⟩

/-- C7: a raised fetch/parse of one feed is caught and reported through the
notification sink while the remaining feeds are still processed — with feed A
failing and feed B parsing to three fresh, distinct entries, the run outputs
exactly those three records and the single failure message naming feed A. -/
theorem parse_feeds_partial_failure_isolation
    (env : Env) (token urlA urlB eMsg : String) (f : Feed) (e1 e2 e3 : Entry)
    (existing : List String)
    (hAt : pyStrip urlA ≠ "") (hBt : pyStrip urlB ≠ "")
    (hA : env.fetchFeed urlA = .error eMsg)
    (hB : env.fetchFeed urlB = .ok f)
    (hf : f.entries = [e1, e2, e3])
    (h1 : e1.link.getD "" ∉ existing)
    (h2 : e2.link.getD "" ∉ existing)
    (h3 : e3.link.getD "" ∉ existing)
    (h21 : e2.link.getD "" ≠ e1.link.getD "")
    (h31 : e3.link.getD "" ≠ e1.link.getD "")
    (h32 : e3.link.getD "" ≠ e2.link.getD "") :
    (parse_feeds env token [urlA, urlB] existing).2.records.map SyncRecord.linkURL
      = [e1.link.getD "", e2.link.getD "", e3.link.getD ""]
    ∧ (parse_feeds env token [urlA, urlB] existing).2.notices = [feedErrMsg urlA eMsg] := by
  obtain ⟨p1a, r1, p1b, p1c⟩ := processEntry_not_mem env token f.title existing e1 h1
  obtain ⟨p2a, r2, p2b, p2c⟩ := processEntry_not_mem env token f.title
    (e1.link.getD "" :: existing) e2 (by simp [List.mem_cons, h21, h2])
  obtain ⟨p3a, r3, p3b, p3c⟩ := processEntry_not_mem env token f.title
    (e2.link.getD "" :: e1.link.getD "" :: existing) e3
    (by simp [List.mem_cons, h32, h31, h3])
  simp only [parse_feeds, if_neg hAt, if_neg hBt, hA, hB, hf, List.take,
    processFeedEntries, p1a, p1b, p2a, p2b, p3a, p3b]
  simp [p1c, p2c, p3c]

/-- Witness for C7 on the concrete environment `wEnvRun`: feed `"A"` raises,
feed `"B"` yields the three `feedB` entries. -/
theorem parse_feeds_partial_failure_isolation_witness :
    (parse_feeds wEnvRun "t" ["A", "B"] []).2.records.map SyncRecord.linkURL
      = ["https://x/1", "https://x/2", "https://x/3"]
    ∧ (parse_feeds wEnvRun "t" ["A", "B"] []).2.notices = [feedErrMsg "A" "boom"] :=
  parse_feeds_partial_failure_isolation wEnvRun "t" "A" "B" "boom" feedB
    (mkEntry "https://x/1") (mkEntry "https://x/2") (mkEntry "https://x/3") []
    (by decide) (by decide) rfl rfl rfl (by decide) (by decide) (by decide)
    (by decide) (by decide) (by decide)

/-- C8 (amended): when a required configuration identifier is absent, the run
prints one diagnostic line and stops before any network call; the abort is
reported only via process output — the notification sink is not invoked, even
when its endpoint is configured. -/
theorem main_missing_config_amended (cfg : Config) (rest : List Action)
    (h : missingConfig cfg = true) :
    main cfg rest = [Action.print "Error: Missing environment variables."]
    ∧ (∀ a ∈ main cfg rest, (∀ u, a ≠ Action.network u) ∧ (∀ s, a ≠ Action.notify s)) := by
  have hm : main cfg rest = [Action.print "Error: Missing environment variables."] := by
    simp [main, h]
  refine ⟨hm, ?_⟩
  rw [hm]
  intro a ha
  rcases List.mem_singleton.mp ha with rfl
  exact ⟨fun u => by simp, fun s => by simp⟩

/-- Witness for C8's amended theorem at the concrete configuration `cfgX`
(webhook set, app id missing). -/
theorem main_missing_config_amended_witness :
    main cfgX [] = [Action.print "Error: Missing environment variables."]
    ∧ Action.print "Error: Missing environment variables." ≠ Action.notify "anything" :=
  ⟨(main_missing_config_amended cfgX [] (by decide)).1,
   ((main_missing_config_amended cfgX [] (by decide)).2 _ (by decide)).2 "anything"⟩

/-- C8 counterexample: with the webhook endpoint configured and the app id
missing, the run's trace is the single printed line — it contains no
notification-sink invocation, refuting the claim that the abort is reported
via the sink whenever the sink's endpoint is configured. -/
theorem main_missing_notify_counterexample :
    cfgX.webhook = some "https://hook"
    ∧ missingConfig cfgX = true
    ∧ main cfgX [Action.network "https://auth"]
        = [Action.print "Error: Missing environment variables."]
    ∧ (main cfgX [Action.network "https://auth"]).all
        (fun a => match a with
          | Action.notify _ => false
          | _ => true) = true :=
  ⟨rfl, by decide, by decide, by decide⟩

/-- The entry loop produces at most one record per entry. -/
theorem processFeedEntries_length_le (env : Env) (token : String) (ft : Option String) :
    ∀ (entries : List Entry) (existing : List String),
      (processFeedEntries env token ft existing entries).2.length ≤ entries.length := by
  intro entries
  induction entries with
  | nil => intro existing; simp [processFeedEntries]
  | cons e es ih =>
    intro existing
    simp only [processFeedEntries]
    cases hstep : (processEntry env token ft existing e).2 with
    | none => simpa using Nat.le_succ_of_le (ih _)
    | some r => simpa using ih _

/-- Entry processing never consults the feed-fetch oracle. -/
theorem processEntry_fetchFeed_irrel (env : Env) (g : String → Except String Feed)
    (token : String) (ft : Option String) (existing : List String) (entry : Entry) :
    processEntry { env with fetchFeed := g } token ft existing entry
      = processEntry env token ft existing entry := rfl

/-- The entry loop never consults the feed-fetch oracle. -/
theorem processFeedEntries_fetchFeed_irrel (env : Env) (g : String → Except String Feed)
    (token : String) (ft : Option String) :
    ∀ (entries : List Entry) (existing : List String),
      processFeedEntries { env with fetchFeed := g } token ft existing entries
        = processFeedEntries env token ft existing entries := by
  intro entries
  induction entries with
  | nil => intro existing; rfl
  | cons e es ih =>
    intro existing
    simp only [processFeedEntries, processEntry_fetchFeed_irrel, ih]

/-- C10: a run over one feed source considers only the first five parsed
entries — the run is unchanged when the feed is truncated to its first five
entries, and a single feed contributes at most five output records. -/
theorem parse_feeds_first_five (env : Env) (token : String) (existing : List String)
    (url : String) (f : Feed) :
    (parse_feeds env token [url] existing).2.records.length ≤ 5
    ∧ (env.fetchFeed url = .ok f →
        parse_feeds env token [url] existing
          = parse_feeds (envWithFeed env url ⟨f.title, f.entries.take 5⟩) token
              [url] existing) := by
  constructor
  · by_cases htrim : pyStrip url = ""
    · simp [parse_feeds, htrim]
    · cases hfetch : env.fetchFeed url with
      | error e => simp [parse_feeds, htrim, hfetch]
      | ok f' =>
        simp only [parse_feeds, if_neg htrim, hfetch, List.append_nil]
        calc (processFeedEntries env token f'.title existing (f'.entries.take 5)).2.length
            ≤ (f'.entries.take 5).length := processFeedEntries_length_le env token f'.title _ _
          _ ≤ 5 := by simp [List.length_take]
  · intro h
    by_cases htrim : pyStrip url = ""
    · simp [parse_feeds, htrim]
    · have h' : (envWithFeed env url ⟨f.title, f.entries.take 5⟩).fetchFeed url
          = .ok ⟨f.title, f.entries.take 5⟩ := by
        simp [envWithFeed]
      simp only [parse_feeds, if_neg htrim, h, h', envWithFeed,
        processFeedEntries_fetchFeed_irrel]
      simp [List.take_take]

/-- Witness for C10 at the concrete seven-entry feed `feed7`: at most five
records are produced and the run equals the truncated-feed run. -/
theorem parse_feeds_first_five_witness :
    (parse_feeds env10 "t" ["F"] []).2.records.length ≤ 5
    ∧ parse_feeds env10 "t" ["F"] []
        = parse_feeds (envWithFeed env10 "F" ⟨feed7.title, feed7.entries.take 5⟩) "t"
            ["F"] [] :=
  ⟨(parse_feeds_first_five env10 "t" [] "F" feed7).1,
   (parse_feeds_first_five env10 "t" [] "F" feed7).2 rfl⟩

end RssSync
